import Mathlib

/-!
Verification of the cookie-analyzer program.

This file is a shallow embedding of `cookie_analyzer/analyzer.py`,
`cookie_analyzer/models.py` and `cookie_analyzer/cli.py`, together with
theorems about the behaviour of the embedded code.

Modelling conventions:
- A Python text stream is a `CSVFile`: the list of its lines (without the
  trailing newline character of each line; every field is whitespace-trimmed
  by the tokenizer, so dropping the newline is observationally equivalent)
  plus the read position and the `_current_line_number` counter.
- Python exceptions are modelled with `Except`; the error value records
  exactly the data embedded into the exception message by the source
  (offending header name, line number, raw value).
- `datetime.fromisoformat` is modelled after CPython (3.10 line):
  a `YYYY-MM-DD` date, optionally followed by one separator character and a
  time `HH[:MM[:SS[.fff[fff]]]]` with an optional `+HH:MM[:SS[.ffffff]]` /
  `-HH:MM[:SS[.ffffff]]` UTC offset.
-/

namespace CookieAnalyzer

/-- Equality of `Except` values is decidable componentwise; this lets
concrete runs of the embedded functions be checked by `decide`. -/
instance {ε α : Type} [DecidableEq ε] [DecidableEq α] :
    DecidableEq (Except ε α)
  | .ok a, .ok b =>
    if h : a = b then .isTrue (by rw [h])
    else .isFalse (fun hh => h (Except.ok.inj hh))
  | .ok _, .error _ => .isFalse (fun hh => Except.noConfusion hh)
  | .error _, .ok _ => .isFalse (fun hh => Except.noConfusion hh)
  | .error e, .error f =>
    if h : e = f then .isTrue (by rw [h])
    else .isFalse (fun hh => h (Except.error.inj hh))

/-- Result of Python `datetime.date()`: a calendar date, compared
lexicographically by (year, month, day). -/
structure Date where
  year : Nat
  month : Nat
  day : Nat
deriving DecidableEq, Repr

/-- Python `date` strict comparison `a < b`. -/
def Date.blt (a b : Date) : Bool :=
  if a.year = b.year then
    if a.month = b.month then decide (a.day < b.day)
    else decide (a.month < b.month)
  else decide (a.year < b.year)

/-- Python `datetime` value: calendar date, time of day, and the optional
UTC offset (in seconds) carried by the timestamp.  `date` is what the
`.date()` accessor returns; no re-zoning is performed anywhere. -/
structure Timestamp where
  date : Date
  hour : Nat
  minute : Nat
  second : Nat
  microsecond : Nat
  utcOffsetSeconds : Option Int
deriving DecidableEq, Repr

/-- Numeric value of a decimal digit character. -/
def digit? (c : Char) : Option Nat :=
  if c.isDigit then some (c.toNat - 48) else none

/-- Two decimal digit characters as a number. -/
def twoDigits? (a b : Char) : Option Nat := do
  let x ← digit? a
  let y ← digit? b
  pure (10 * x + y)

/-- Gregorian leap-year rule used by Python `datetime`. -/
def isLeapYear (y : Nat) : Bool :=
  y % 4 == 0 && (y % 100 != 0 || y % 400 == 0)

/-- Number of days of a month, as validated by Python `datetime`. -/
def daysInMonth (y m : Nat) : Nat :=
  if m = 2 then (if isLeapYear y then 29 else 28)
  else if m = 4 ∨ m = 6 ∨ m = 9 ∨ m = 11 then 30
  else 31

/-- CPython `_parse_isoformat_date`: exactly `YYYY-MM-DD` with a valid
year (1-9999), month and day. -/
def parseIsoDate : List Char → Option Date
  | [y1, y2, y3, y4, '-', m1, m2, '-', d1, d2] => do
    let hi ← twoDigits? y1 y2
    let lo ← twoDigits? y3 y4
    let m ← twoDigits? m1 m2
    let d ← twoDigits? d1 d2
    let y := 100 * hi + lo
    if 1 ≤ y ∧ 1 ≤ m ∧ m ≤ 12 ∧ 1 ≤ d ∧ d ≤ daysInMonth y m then
      pure ⟨y, m, d⟩
    else none
  | _ => none

/-- CPython `_parse_hh_mm_ss_ff`: hour, minute, second, microsecond from
`HH`, `HH:MM`, `HH:MM:SS`, `HH:MM:SS.fff` or `HH:MM:SS.ffffff`. -/
def parseHMS : List Char → Option (Nat × Nat × Nat × Nat)
  | [h1, h2] => do
    let h ← twoDigits? h1 h2
    pure (h, 0, 0, 0)
  | [h1, h2, ':', m1, m2] => do
    let h ← twoDigits? h1 h2
    let m ← twoDigits? m1 m2
    pure (h, m, 0, 0)
  | [h1, h2, ':', m1, m2, ':', s1, s2] => do
    let h ← twoDigits? h1 h2
    let m ← twoDigits? m1 m2
    let s ← twoDigits? s1 s2
    pure (h, m, s, 0)
  | [h1, h2, ':', m1, m2, ':', s1, s2, '.', f1, f2, f3] => do
    let h ← twoDigits? h1 h2
    let m ← twoDigits? m1 m2
    let s ← twoDigits? s1 s2
    let a ← digit? f1
    let b ← digit? f2
    let c ← digit? f3
    pure (h, m, s, (100 * a + 10 * b + c) * 1000)
  | [h1, h2, ':', m1, m2, ':', s1, s2, '.', f1, f2, f3, f4, f5, f6] => do
    let h ← twoDigits? h1 h2
    let m ← twoDigits? m1 m2
    let s ← twoDigits? s1 s2
    let a ← digit? f1
    let b ← digit? f2
    let c ← digit? f3
    let d ← digit? f4
    let e ← digit? f5
    let f ← digit? f6
    pure (h, m, s, 100000 * a + 10000 * b + 1000 * c + 100 * d + 10 * e + f)
  | _ => none

/-- CPython `_parse_isoformat_time`: the first `-` of the time string (else
the first `+`) starts the UTC offset; time components are range-checked as
the `datetime` constructor does, the offset must stay below 24 hours as
`timezone` requires. -/
def parseIsoTime (cs : List Char) : Option (Nat × Nat × Nat × Nat × Option Int) :=
  let tz : Option (Int × Nat) :=
    match cs.findIdx? (fun c => c == '-') with
    | some i => some (-1, i)
    | none =>
      match cs.findIdx? (fun c => c == '+') with
      | some i => some (1, i)
      | none => none
  match tz with
  | none => do
    let (h, m, s, f) ← parseHMS cs
    if h ≤ 23 ∧ m ≤ 59 ∧ s ≤ 59 then pure (h, m, s, f, none) else none
  | some (sign, i) => do
    let (h, m, s, f) ← parseHMS (cs.take i)
    let tzstr := cs.drop (i + 1)
    if h ≤ 23 ∧ m ≤ 59 ∧ s ≤ 59 then
      if tzstr.length = 5 ∨ tzstr.length = 8 ∨ tzstr.length = 15 then do
        let (th, tm, ts, _) ← parseHMS tzstr
        let total : Nat := 3600 * th + 60 * tm + ts
        if total < 86400 then pure (h, m, s, f, some (sign * (total : Int)))
        else none
      else none
    else none

/-- CPython `datetime.fromisoformat` (3.10 line): the first ten characters
are the date; a longer string has one separator character at index 10
(never inspected) followed by the time string. -/
def fromisoformat (s : String) : Option Timestamp :=
  let cs := s.toList
  if cs.length < 10 then none
  else do
    let d ← parseIsoDate (cs.take 10)
    if cs.length = 10 then pure ⟨d, 0, 0, 0, 0, none⟩
    else do
      let (h, m, sec, f, off) ← parseIsoTime (cs.drop 11)
      pure ⟨d, h, m, sec, f, off⟩

/-- Character class stripped by Python `str.strip()` (ASCII range, the one
relevant to CSV lines). -/
def isPyWhitespace (c : Char) : Bool :=
  c == ' ' || c == '\t' || c == '\n' || c == '\r' || c == '\x0b' || c == '\x0c'

/-- Python `str.strip()`: drop leading and trailing whitespace. -/
def stripChars (cs : List Char) : List Char :=
  ((cs.dropWhile isPyWhitespace).reverse.dropWhile isPyWhitespace).reverse

/-- Python `str.split(",")`: split at every comma; the empty string yields
one empty piece. -/
def splitOnComma : List Char → List (List Char)
  | [] => [[]]
  | c :: rest =>
    let r := splitOnComma rest
    if c = ',' then [] :: r
    else
      match r with
      | [] => [[c]]
      | seg :: segs => (c :: seg) :: segs

/-- `CSVFile.extract_data_from_line`: split a CSV line on the comma
delimiter and strip surrounding whitespace from each piece. -/
def extract_data_from_line (line : String) : List String :=
  (splitOnComma line.toList).map (fun cs => String.mk (stripChars cs))

/-- Data carried by each exception the analyzer raises.  Each constructor
records exactly what the corresponding Python message embeds:
`unsupportedHeader` the offending header name, `malformedCookie` and
`malformedTimestamp` the line number and raw value, `columnCountMismatch`
the line number.  `missingLogField` models the `TypeError` raised by
`CookieLog(**kwargs)` when a field is absent (reachable only with a
registry not produced by `_init_data_parsers` on a two-column header). -/
inductive AnalyzerError where
  | unsupportedHeader (name : String)
  | malformedCookie (line : Nat) (value : String)
  | malformedTimestamp (line : Nat) (value : String)
  | columnCountMismatch (line : Nat)
  | missingLogField (name : String)
deriving DecidableEq, Repr

/-- Which parsing function a `CookiesDataParser` binds: `_cookie_parser`
or `_timestamp_parser`. -/
inductive ParserKind where
  | cookie
  | timestamp
deriving DecidableEq, Repr

/-- `models.CookiesDataParser`: a column binding of header name and
parsing function (represented by its `ParserKind`). -/
structure CookiesDataParser where
  header_name : String
  kind : ParserKind
deriving DecidableEq, Repr

/-- A parsed field value: `_cookie_parser` returns the string unchanged,
`_timestamp_parser` returns a `datetime` value. -/
inductive Value where
  | str (s : String)
  | ts (t : Timestamp)
deriving DecidableEq, Repr

/-- `models.CookieLog`: one decoded log entry. -/
structure CookieLog where
  cookie : String
  timestamp : Timestamp
deriving DecidableEq, Repr

/-- `models.CookiesAnalysis`: counts per cookie (a Python `dict`, modelled
as an insertion-ordered association list) and the running maximum. -/
structure CookiesAnalysis where
  cookies_count_map : List (String × Nat)
  max_count : Nat
deriving DecidableEq, Repr

/-- Header name constant `CookiesAnalyzer.COOKIE_HEADER`. -/
def COOKIE_HEADER : String := "cookie"

/-- Header name constant `CookiesAnalyzer.TIMESTAMP_HEADER`. -/
def TIMESTAMP_HEADER : String := "timestamp"

/-- The bound parsing functions `_cookie_parser` and `_timestamp_parser`
applied to a raw field value at current line number `ln`: an empty cookie
and an unparsable timestamp raise `ValueError` with the line number and
the raw value. -/
def applyParsingFunc (k : ParserKind) (ln : Nat) (value : String) :
    Except AnalyzerError Value :=
  match k with
  | .cookie =>
    if value.length = 0 then .error (.malformedCookie ln value)
    else .ok (.str value)
  | .timestamp =>
    match fromisoformat value with
    | none => .error (.malformedTimestamp ln value)
    | some t => .ok (.ts t)

/-- `CookiesAnalyzer._init_data_parsers`: one binding per header field, in
column order; the first field that is neither `cookie` nor `timestamp`
fails the whole construction with the unsupported-header error. -/
def _init_data_parsers : List String → Except AnalyzerError (List CookiesDataParser)
  | [] => .ok []
  | header :: rest =>
    if header = COOKIE_HEADER then
      match _init_data_parsers rest with
      | .error e => .error e
      | .ok ps => .ok (⟨COOKIE_HEADER, .cookie⟩ :: ps)
    else if header = TIMESTAMP_HEADER then
      match _init_data_parsers rest with
      | .error e => .error e
      | .ok ps => .ok (⟨TIMESTAMP_HEADER, .timestamp⟩ :: ps)
    else .error (.unsupportedHeader header)

/-- Python `dict` lookup with default (`dict.get(k, d)`). -/
def dictGetD (m : List (String × Nat)) (k : String) (d : Nat) : Nat :=
  match m with
  | [] => d
  | (k0, v0) :: rest => if k0 = k then v0 else dictGetD rest k d

/-- Python `dict` assignment `m[k] = v`: updates in place, keeping the key
at its first-insertion position, or appends a new key at the end. -/
def dictSet (m : List (String × Nat)) (k : String) (v : Nat) : List (String × Nat) :=
  match m with
  | [] => [(k, v)]
  | (k0, v0) :: rest =>
    if k0 = k then (k0, v) :: rest else (k0, v0) :: dictSet rest k v

/-- Python `dict` lookup returning an optional value. -/
def vdictGet (m : List (String × Value)) (k : String) : Option Value :=
  match m with
  | [] => none
  | (k0, v0) :: rest => if k0 = k then some v0 else vdictGet rest k

/-- Python `dict` assignment for the row-decoding dictionary. -/
def vdictSet (m : List (String × Value)) (k : String) (v : Value) :
    List (String × Value) :=
  match m with
  | [] => [(k, v)]
  | (k0, v0) :: rest =>
    if k0 = k then (k0, v) :: rest else (k0, v0) :: vdictSet rest k v

/-- The `for i in range(row_data_len)` loop of `_parse_cookie_log`: apply
each binding to its positional field, storing results under the binding's
header name; the first parser failure aborts the row. -/
def applyDataParsers (ln : Nat) :
    List (CookiesDataParser × String) → List (String × Value) →
    Except AnalyzerError (List (String × Value))
  | [], acc => .ok acc
  | (p, v) :: rest, acc =>
    match applyParsingFunc p.kind ln v with
    | .error e => .error e
    | .ok x => applyDataParsers ln rest (vdictSet acc p.header_name x)

/-- The final `CookieLog(**cookie_log)` construction: requires the
`cookie` and `timestamp` fields to be present with their expected types
(a `TypeError`, modelled as `missingLogField`, otherwise). -/
def mkCookieLog (d : List (String × Value)) : Except AnalyzerError CookieLog :=
  match vdictGet d COOKIE_HEADER, vdictGet d TIMESTAMP_HEADER with
  | some (.str c), some (.ts t) => .ok ⟨c, t⟩
  | none, _ => .error (.missingLogField COOKIE_HEADER)
  | _, none => .error (.missingLogField TIMESTAMP_HEADER)
  | _, _ => .error (.missingLogField "")

/-- `CookiesAnalyzer._parse_cookie_log` at current line number `ln`: the
column-count check comes first, then the bindings are applied
positionally. -/
def _parse_cookie_log (parsers : List CookiesDataParser) (ln : Nat)
    (row_data : List String) : Except AnalyzerError CookieLog :=
  if row_data.length ≠ parsers.length then .error (.columnCountMismatch ln)
  else
    match applyDataParsers ln (parsers.zip row_data) [] with
    | .error e => .error e
    | .ok d => mkCookieLog d

/-- `analyzer.CSVFile` state: the stream content as lines, the stream
position (index of the next line to read) and `_current_line_number`. -/
structure CSVFile where
  lines : List String
  pos : Nat
  current_line_number : Nat
deriving DecidableEq, Repr

/-- `CSVFile.goto_beginning`: seek to the start and reset the line
counter. -/
def CSVFile.goto_beginning (s : CSVFile) : CSVFile :=
  ⟨s.lines, 0, 0⟩

/-- Python `readline`: the next line, or the empty string at end of
stream. -/
def CSVFile.readline (s : CSVFile) : String × CSVFile :=
  match s.lines.get? s.pos with
  | some l => (l, ⟨s.lines, s.pos + 1, s.current_line_number⟩)
  | none => ("", s)

/-- `CSVFile.get_headers`: reset to the beginning, read the first line,
count it, and tokenize it. -/
def CSVFile.get_headers (s : CSVFile) : List String × CSVFile :=
  let s0 := s.goto_beginning
  let (l, s1) := s0.readline
  (extract_data_from_line l, ⟨s1.lines, s1.pos, s1.current_line_number + 1⟩)

/-- The data rows yielded by `CSVFile.iter_rows(skip_header=True)`: reset
to the beginning, skip the header line, tokenize every following line.
The Python generator is lazy; tokenization is total, so the list of all
its potential elements is an equivalent model (consumers that stop early
simply ignore a suffix). -/
def CSVFile.iter_rows_data (s : CSVFile) : List (List String) :=
  let s0 := s.goto_beginning
  let (_, s1) := s0.readline
  (s1.lines.drop s1.pos).map extract_data_from_line

/-- `CookiesAnalyzer.__init__`: construction succeeds exactly when
`_init_data_parsers` accepts the header row read from the stream. -/
def CookiesAnalyzer.init (s : CSVFile) :
    Except AnalyzerError (List CookiesDataParser) :=
  _init_data_parsers (s.get_headers).1

/-- The row loop of `_get_cookies_analysis`: `ln` is the current line
number of the row at the head (the first data row is line 2).  Rows are
decoded in file order; a decode failure aborts; a decoded entry dated
before the target breaks out returning the accumulated result; one dated
at the target is counted and the running maximum updated; a later-dated
one is skipped. -/
def analysisLoop (parsers : List CookiesDataParser) (target : Date) :
    Nat → List (String × Nat) → Nat → List (List String) →
    Except AnalyzerError CookiesAnalysis
  | _, counts, maxc, [] => .ok ⟨counts, maxc⟩
  | ln, counts, maxc, row :: rest =>
    match _parse_cookie_log parsers ln row with
    | .error e => .error e
    | .ok lg =>
      if Date.blt lg.timestamp.date target then .ok ⟨counts, maxc⟩
      else if lg.timestamp.date = target then
        analysisLoop parsers target (ln + 1)
          (dictSet counts lg.cookie (dictGetD counts lg.cookie 0 + 1))
          (max maxc (dictGetD counts lg.cookie 0 + 1)) rest
      else analysisLoop parsers target (ln + 1) counts maxc rest

/-- `CookiesAnalyzer._get_cookies_analysis` on an explicit list of
tokenized data rows (the first data row of a CSV file is line 2). -/
def _get_cookies_analysis_rows (parsers : List CookiesDataParser)
    (target : Date) (rows : List (List String)) :
    Except AnalyzerError CookiesAnalysis :=
  analysisLoop parsers target 2 [] 0 rows

/-- `CookiesAnalyzer._get_cookies_analysis` on the stream state: iterate
the data rows of the file (position reset by `iter_rows`). -/
def _get_cookies_analysis (parsers : List CookiesDataParser) (s : CSVFile)
    (target : Date) : Except AnalyzerError CookiesAnalysis :=
  _get_cookies_analysis_rows parsers target s.iter_rows_data

/-- The selection loop of `get_most_active`: keep, in map order, every
cookie whose count equals the maximum. -/
def mostActiveLoop (m : List (String × Nat)) (maxc : Nat) : List String :=
  match m with
  | [] => []
  | (c, n) :: rest =>
    if n = maxc then c :: mostActiveLoop rest maxc else mostActiveLoop rest maxc

/-- `CookiesAnalyzer.get_most_active`. -/
def get_most_active (parsers : List CookiesDataParser) (s : CSVFile)
    (target : Date) : Except AnalyzerError (List String) :=
  match _get_cookies_analysis parsers s target with
  | .error e => .error e
  | .ok a => .ok (mostActiveLoop a.cookies_count_map a.max_count)

/-- Error raised by `cli.parse_date_input`, carrying the raw input that
its message embeds. -/
inductive CliError where
  | invalidDateInput (raw : String)
deriving DecidableEq, Repr

/-- `cli.parse_date_input`: `datetime.fromisoformat(date_input).date()`,
re-raised as the invalid-date-input error when parsing fails. -/
def parse_date_input (date_input : String) : Except CliError Date :=
  match fromisoformat date_input with
  | none => .error (.invalidDateInput date_input)
  | some ts => .ok ts.date

/-- Modelled from the spec wording at the CLI boundary: a string that is a
well-formed date-only `YYYY-MM-DD` calendar date and nothing more. -/
def isStrictDateOnly (s : String) : Bool :=
  (s.toList.length == 10) && (parseIsoDate (s.toList.take 10)).isSome

/-- Maximum of the values of a counts map (0 when the map is empty). -/
def valuesMax (m : List (String × Nat)) : Nat :=
  m.foldr (fun p acc => max p.2 acc) 0

/-- Keys of a counts map, in insertion order. -/
def keys (m : List (String × Nat)) : List String :=
  m.map Prod.fst

/-- Holds when a tokenized row decodes successfully into an entry whose
date is not before the target date (line numbers do not affect decoding
success, so line 2 is representative). -/
def decodes_ge_target (parsers : List CookiesDataParser) (t : Date)
    (row : List String) : Bool :=
  match _parse_cookie_log parsers 2 row with
  | .ok lg => !Date.blt lg.timestamp.date t
  | .error _ => false

/-- The registry built for the header row `cookie,timestamp`. -/
def parsersCT : List CookiesDataParser :=
  [⟨COOKIE_HEADER, .cookie⟩, ⟨TIMESTAMP_HEADER, .timestamp⟩]

/-- The registry built for the header row `timestamp,cookie`. -/
def parsersTC : List CookiesDataParser :=
  [⟨TIMESTAMP_HEADER, .timestamp⟩, ⟨COOKIE_HEADER, .cookie⟩]

/-- The sample cookie log used throughout the repository tests. -/
def sampleLines : List String :=
  ["cookie,timestamp",
   "cookie1,2021-12-09T14:19:00+00:00",
   "cookie2,2021-12-09T10:13:00+00:00",
   "cookie1,2021-12-09T07:25:00+00:00",
   "cookie3,2021-12-08T22:03:00+00:00",
   "cookie1,2021-12-07T23:30:00+00:00"]

/-- The sample log as a freshly opened stream. -/
def sampleFile : CSVFile :=
  ⟨sampleLines, 0, 0⟩

/-- Target date 2021-12-09 of the sample queries. -/
def dec9 : Date :=
  ⟨2021, 12, 9⟩

/-- Result of analysing the sample log for 2021-12-09. -/
def sampleAnalysis : CookiesAnalysis :=
  ⟨[("cookie1", 2), ("cookie2", 1)], 2⟩

/-- A date is never strictly less than itself, so the equality branch of
the loop is reached exactly when the decoded date equals the target. -/
theorem Date.blt_irrefl (a : Date) : Date.blt a a = false := by
  simp [Date.blt]

/-- Successful parsing-function application does not depend on the current
line number (only error values embed it). -/
theorem applyParsingFunc_ok_irrel {k : ParserKind} {ln ln' : Nat} {v : String}
    {x : Value} (h : applyParsingFunc k ln v = .ok x) :
    applyParsingFunc k ln' v = .ok x := by
  cases k with
  | cookie =>
    by_cases hv : v.length = 0 <;> simp [applyParsingFunc, hv] at h ⊢
    exact h
  | timestamp =>
    cases hf : fromisoformat v <;> simp [applyParsingFunc, hf] at h ⊢
    exact h

/-- Successful application of a binding list does not depend on the
current line number. -/
theorem applyDataParsers_ok_irrel {ln ln' : Nat}
    {ps : List (CookiesDataParser × String)} {acc d : List (String × Value)}
    (h : applyDataParsers ln ps acc = .ok d) :
    applyDataParsers ln' ps acc = .ok d := by
  induction ps generalizing acc with
  | nil => simpa [applyDataParsers] using h
  | cons pv rest ih =>
    obtain ⟨p, v⟩ := pv
    cases hap : applyParsingFunc p.kind ln v with
    | error e => simp [applyDataParsers, hap] at h
    | ok x =>
      have hap' : applyParsingFunc p.kind ln' v = .ok x :=
        applyParsingFunc_ok_irrel hap
      simp [applyDataParsers, hap] at h
      simp [applyDataParsers, hap']
      exact ih h

/-- Successful row decoding does not depend on the current line number. -/
theorem parse_cookie_log_ok_irrel {parsers : List CookiesDataParser}
    {ln ln' : Nat} {row : List String} {lg : CookieLog}
    (h : _parse_cookie_log parsers ln row = .ok lg) :
    _parse_cookie_log parsers ln' row = .ok lg := by
  unfold _parse_cookie_log at h ⊢
  by_cases hlen : row.length ≠ parsers.length
  · simp [hlen] at h
  · simp only [hlen, if_false] at h ⊢
    cases hap : applyDataParsers ln (parsers.zip row) [] with
    | error e => simp [hap] at h
    | ok d =>
      simp [hap] at h
      simp [applyDataParsers_ok_irrel hap]
      exact h

/-- Unpacking of `decodes_ge_target`: the row decodes (at every line
number) into an entry not dated before the target. -/
theorem decodes_ge_target_elim {parsers : List CookiesDataParser} {t : Date}
    {row : List String} (h : decodes_ge_target parsers t row = true) :
    ∃ lg, (∀ ln, _parse_cookie_log parsers ln row = .ok lg) ∧
      Date.blt lg.timestamp.date t = false := by
  unfold decodes_ge_target at h
  cases hp : _parse_cookie_log parsers 2 row with
  | error e => simp [hp] at h
  | ok lg =>
    refine ⟨lg, fun ln => parse_cookie_log_ok_irrel hp, ?_⟩
    simp [hp] at h
    simpa using h

/-- Early stop: when every row of `pre` decodes to an entry not dated
before the target and `r` decodes to an entry dated before it, the loop
run on `pre ++ r :: post` stops at `r` and coincides with the run on
`pre` alone, whatever `post` holds. -/
theorem analysisLoop_stop {parsers : List CookiesDataParser} {t : Date}
    {r : List String} {post : List (List String)} {lg : CookieLog}
    (hr : _parse_cookie_log parsers 2 r = .ok lg)
    (hlt : Date.blt lg.timestamp.date t = true) :
    ∀ (pre : List (List String)) (ln : Nat) (counts : List (String × Nat))
      (maxc : Nat),
    (∀ row ∈ pre, decodes_ge_target parsers t row = true) →
    analysisLoop parsers t ln counts maxc (pre ++ r :: post)
      = analysisLoop parsers t ln counts maxc pre := by
  intro pre
  induction pre with
  | nil =>
    intro ln counts maxc _
    have hr' : _parse_cookie_log parsers ln r = .ok lg :=
      parse_cookie_log_ok_irrel hr
    simp [analysisLoop, hr', hlt]
  | cons row pre' ih =>
    intro ln counts maxc hpre
    obtain ⟨lg2, hok, hblt⟩ :=
      decodes_ge_target_elim (hpre row (List.mem_cons_self row pre'))
    have hpre' : ∀ q ∈ pre', decodes_ge_target parsers t q = true :=
      fun q hq => hpre q (List.mem_cons_of_mem _ hq)
    by_cases heq : lg2.timestamp.date = t <;>
      simp [analysisLoop, hok ln, hblt, heq, Date.blt_irrefl] <;>
      exact ih _ _ _ hpre'

/-- A loop run over rows that all decode to entries not dated before the
target never raises. -/
theorem analysisLoop_all_ok {parsers : List CookiesDataParser} {t : Date} :
    ∀ (pre : List (List String)) (ln : Nat) (counts : List (String × Nat))
      (maxc : Nat),
    (∀ row ∈ pre, decodes_ge_target parsers t row = true) →
    ∃ a, analysisLoop parsers t ln counts maxc pre = .ok a := by
  intro pre
  induction pre with
  | nil =>
    intro ln counts maxc _
    exact ⟨⟨counts, maxc⟩, by simp [analysisLoop]⟩
  | cons row pre' ih =>
    intro ln counts maxc hpre
    obtain ⟨lg2, hok, hblt⟩ :=
      decodes_ge_target_elim (hpre row (List.mem_cons_self row pre'))
    have hpre' : ∀ q ∈ pre', decodes_ge_target parsers t q = true :=
      fun q hq => hpre q (List.mem_cons_of_mem _ hq)
    by_cases heq : lg2.timestamp.date = t <;>
      simp [analysisLoop, hok ln, hblt, heq, Date.blt_irrefl] <;>
      exact ih _ _ _ hpre'

/-- The row after `pre` is decoded at line number `ln + pre.length`; when
that decoding fails, the whole loop fails with that error. -/
theorem analysisLoop_error_at {parsers : List CookiesDataParser} {t : Date}
    {r : List String} {post : List (List String)} {e : AnalyzerError} :
    ∀ (pre : List (List String)) (ln : Nat) (counts : List (String × Nat))
      (maxc : Nat),
    (∀ row ∈ pre, decodes_ge_target parsers t row = true) →
    _parse_cookie_log parsers (ln + pre.length) r = .error e →
    analysisLoop parsers t ln counts maxc (pre ++ r :: post) = .error e := by
  intro pre
  induction pre with
  | nil =>
    intro ln counts maxc _ hr
    simp only [List.length_nil, Nat.add_zero] at hr
    simp [analysisLoop, hr]
  | cons row pre' ih =>
    intro ln counts maxc hpre hr
    obtain ⟨lg2, hok, hblt⟩ :=
      decodes_ge_target_elim (hpre row (List.mem_cons_self row pre'))
    have hpre' : ∀ q ∈ pre', decodes_ge_target parsers t q = true :=
      fun q hq => hpre q (List.mem_cons_of_mem _ hq)
    have hr' : _parse_cookie_log parsers ((ln + 1) + pre'.length) r = .error e := by
      have harith : (ln + 1) + pre'.length = ln + (row :: pre').length := by
        simp [List.length_cons]
        omega
      rw [harith]
      exact hr
    by_cases heq : lg2.timestamp.date = t <;>
      simp [analysisLoop, hok ln, hblt, heq, Date.blt_irrefl] <;>
      exact ih _ _ _ hpre' hr'

/-- Incrementing the count of one key moves the maximum of the values to
the maximum of the old maximum and the new count. -/
theorem valuesMax_dictSet_succ (m : List (String × Nat)) (k : String) :
    valuesMax (dictSet m k (dictGetD m k 0 + 1))
      = max (valuesMax m) (dictGetD m k 0 + 1) := by
  induction m with
  | nil =>
    simp [valuesMax, dictSet, dictGetD]
  | cons p rest ih =>
    obtain ⟨k0, v0⟩ := p
    by_cases hk : k0 = k
    · subst hk
      simp [valuesMax, dictSet, dictGetD]
      omega
    · simp [valuesMax, dictSet, dictGetD, hk] at ih ⊢
      omega

/-- A key of the updated map is a key of the old map or the updated key. -/
theorem keys_dictSet_sub (m : List (String × Nat)) (k : String) (v : Nat)
    (c : String) :
    c ∈ keys (dictSet m k v) → c ∈ keys m ∨ c = k := by
  induction m with
  | nil =>
    intro h
    simp [dictSet, keys] at h
    simp [h]
  | cons p rest ih =>
    obtain ⟨k0, v0⟩ := p
    by_cases hk : k0 = k
    · subst hk
      intro h
      simp [dictSet, keys] at h ⊢
      tauto
    · intro h
      simp [dictSet, keys, hk] at h ⊢
      rcases h with h | h
      · exact Or.inl (Or.inl h)
      · rcases ih (by simpa [keys] using h) with h2 | h2
        · exact Or.inl (Or.inr (by simpa [keys] using h2))
        · exact Or.inr h2

/-- Loop invariant: starting from a map whose maximum of values is the
running maximum, a successful run ends with `max_count` equal to the
maximum of the values, and every key either was already present or stems
from a decoded row of the input dated at the target. -/
theorem analysisLoop_invariant {parsers : List CookiesDataParser} {t : Date} :
    ∀ (rows : List (List String)) (ln : Nat) (counts : List (String × Nat))
      (maxc : Nat) (a : CookiesAnalysis),
    maxc = valuesMax counts →
    analysisLoop parsers t ln counts maxc rows = .ok a →
    a.max_count = valuesMax a.cookies_count_map ∧
    (∀ c, c ∈ keys a.cookies_count_map → c ∈ keys counts ∨
      ∃ row lg, row ∈ rows ∧ (∃ l, _parse_cookie_log parsers l row = .ok lg) ∧
        lg.cookie = c ∧ lg.timestamp.date = t) := by
  intro rows
  induction rows with
  | nil =>
    intro ln counts maxc a hmax h
    simp [analysisLoop] at h
    subst h
    exact ⟨hmax, fun c hc => Or.inl hc⟩
  | cons row rest ih =>
    intro ln counts maxc a hmax h
    cases hp : _parse_cookie_log parsers ln row with
    | error e => simp [analysisLoop, hp] at h
    | ok lg =>
      by_cases hblt : Date.blt lg.timestamp.date t = true
      · simp [analysisLoop, hp, hblt] at h
        subst h
        exact ⟨hmax, fun c hc => Or.inl hc⟩
      · by_cases heq : lg.timestamp.date = t
        · simp [analysisLoop, hp, hblt, heq, Date.blt_irrefl] at h
          have hmax' : max maxc (dictGetD counts lg.cookie 0 + 1)
              = valuesMax (dictSet counts lg.cookie
                  (dictGetD counts lg.cookie 0 + 1)) := by
            rw [hmax, valuesMax_dictSet_succ]
          obtain ⟨h1, h2⟩ := ih (ln + 1) _ _ a hmax' h
          refine ⟨h1, fun c hc => ?_⟩
          rcases h2 c hc with hin | ⟨row2, lg2, hm, hdec, hck, hdt⟩
          · rcases keys_dictSet_sub _ _ _ _ hin with hin2 | hck
            · exact Or.inl hin2
            · exact Or.inr ⟨row, lg, by simp, ⟨ln, hp⟩, hck.symm, heq⟩
          · exact Or.inr ⟨row2, lg2, by simp [hm], hdec, hck, hdt⟩
        · simp [analysisLoop, hp, hblt, heq] at h
          obtain ⟨h1, h2⟩ := ih (ln + 1) counts maxc a hmax h
          refine ⟨h1, fun c hc => ?_⟩
          rcases h2 c hc with hin | ⟨row2, lg2, hm, hdec, hck, hdt⟩
          · exact Or.inl hin
          · exact Or.inr ⟨row2, lg2, by simp [hm], hdec, hck, hdt⟩

/-- The selection loop keeps, in map order, exactly the entries whose
count equals the maximum. -/
theorem mostActiveLoop_filter (m : List (String × Nat)) (maxc : Nat) :
    mostActiveLoop m maxc
      = (m.filter (fun p => decide (p.2 = maxc))).map Prod.fst := by
  induction m with
  | nil => simp [mostActiveLoop]
  | cons p rest ih =>
    obtain ⟨c, n⟩ := p
    by_cases h : n = maxc <;> simp [mostActiveLoop, h, ih]

/-- Registry construction succeeds exactly when every header field is one
of the two recognized names. -/
theorem init_data_parsers_ok_iff (headers : List String) :
    (_init_data_parsers headers).isOk = true ↔
      ∀ h ∈ headers, h = COOKIE_HEADER ∨ h = TIMESTAMP_HEADER := by
  induction headers with
  | nil => simp [_init_data_parsers, Except.isOk, Except.toBool]
  | cons hd rest ih =>
    by_cases h1 : hd = COOKIE_HEADER
    · subst h1
      cases hrest : _init_data_parsers rest with
      | error e =>
        simp [_init_data_parsers, hrest, Except.isOk, Except.toBool] at ih ⊢
        tauto
      | ok ps =>
        simp [_init_data_parsers, hrest, Except.isOk, Except.toBool] at ih ⊢
        tauto
    · by_cases h2 : hd = TIMESTAMP_HEADER
      · subst h2
        cases hrest : _init_data_parsers rest with
        | error e =>
          simp [_init_data_parsers, h1, hrest, Except.isOk, Except.toBool] at ih ⊢
          tauto
        | ok ps =>
          simp [_init_data_parsers, h1, hrest, Except.isOk, Except.toBool] at ih ⊢
          tauto
      · constructor
        · intro hok
          exfalso
          simp [_init_data_parsers, h1, h2, Except.isOk, Except.toBool] at hok
        · intro hall
          exfalso
          rcases hall hd (List.mem_cons_self hd rest) with h | h
          · exact h1 h
          · exact h2 h

/-- A failed registry construction always fails with the
unsupported-header error, naming a field of the header row that is
neither recognized name. -/
theorem init_data_parsers_error_elim :
    ∀ (headers : List String) (e : AnalyzerError),
    _init_data_parsers headers = .error e →
    ∃ h, e = .unsupportedHeader h ∧ h ∈ headers ∧
      h ≠ COOKIE_HEADER ∧ h ≠ TIMESTAMP_HEADER := by
  intro headers
  induction headers with
  | nil => intro e he; simp [_init_data_parsers] at he
  | cons hd rest ih =>
    intro e he
    by_cases h1 : hd = COOKIE_HEADER
    · subst h1
      cases hrest : _init_data_parsers rest with
      | error e2 =>
        simp [_init_data_parsers, hrest] at he
        subst he
        obtain ⟨h, hh1, hh2, hh3, hh4⟩ := ih _ hrest
        exact ⟨h, hh1, List.mem_cons_of_mem _ hh2, hh3, hh4⟩
      | ok ps => simp [_init_data_parsers, hrest] at he
    · by_cases h2 : hd = TIMESTAMP_HEADER
      · subst h2
        cases hrest : _init_data_parsers rest with
        | error e2 =>
          simp [_init_data_parsers, h1, hrest] at he
          subst he
          obtain ⟨h, hh1, hh2, hh3, hh4⟩ := ih _ hrest
          exact ⟨h, hh1, List.mem_cons_of_mem _ hh2, hh3, hh4⟩
        | ok ps => simp [_init_data_parsers, h1, hrest] at he
      · simp [_init_data_parsers, h1, h2] at he
        exact ⟨hd, he.symm, List.mem_cons_self hd rest, h1, h2⟩

/-- When every binding before position `i` parses its field and the
binding at `i` fails, the whole loop fails with that error. -/
theorem applyDataParsers_first_error {ln : Nat} {p : CookiesDataParser}
    {v : String} {zrest : List (CookiesDataParser × String)}
    {e : AnalyzerError} :
    ∀ (zpre : List (CookiesDataParser × String)) (acc : List (String × Value)),
    (∀ q ∈ zpre, ∃ x, applyParsingFunc q.1.kind ln q.2 = .ok x) →
    applyParsingFunc p.kind ln v = .error e →
    applyDataParsers ln (zpre ++ (p, v) :: zrest) acc = .error e := by
  intro zpre
  induction zpre with
  | nil =>
    intro acc _ hv
    simp [applyDataParsers, hv]
  | cons q zpre2 ih =>
    intro acc hpre hv
    obtain ⟨x, hx⟩ := hpre q (List.mem_cons_self q zpre2)
    obtain ⟨q1, q2⟩ := q
    simp only [List.cons_append]
    simp [applyDataParsers, hx]
    exact ih _ (fun q hq => hpre q (List.mem_cons_of_mem _ hq)) hv

/-- Decoding is positional: with the two recognized headers in either
order, a row and its swapped counterpart decode to the same entry. -/
theorem parse_two_cols_comm (cv tv : String) (ln : Nat) (lg : CookieLog) :
    _parse_cookie_log parsersCT ln [cv, tv] = .ok lg ↔
    _parse_cookie_log parsersTC ln [tv, cv] = .ok lg := by
  by_cases hcv : cv.length = 0 <;> cases hft : fromisoformat tv <;>
    simp [parsersCT, parsersTC, _parse_cookie_log, applyDataParsers,
      applyParsingFunc, hcv, hft, vdictSet, vdictGet, mkCookieLog,
      COOKIE_HEADER, TIMESTAMP_HEADER]

/-- C1: the aggregator iterates data rows in file order, decoding each: a
decoded entry dated after the target is skipped; one dated at the target
has its cookie count incremented and the running maximum updated; at the
first decoded entry dated before the target, iteration terminates
immediately, so the result equals the analysis of the preceding rows, is
independent of everything after that row (so a malformed row placed there
never raises), and is a success.  The first three conjuncts state the
per-row skip, count and stop steps of the loop; the last states the
whole-stream consequence for any stream on which the preceding rows
decode to entries not dated before the target (in particular for every
stream sorted by non-increasing timestamp that reaches an older row). -/
theorem aggregator_skip_count_stop (parsers : List CookiesDataParser)
    (t : Date) :
    (∀ (ln : Nat) (counts : List (String × Nat)) (maxc : Nat)
       (row : List String) (rest : List (List String)) (lg : CookieLog),
       _parse_cookie_log parsers ln row = .ok lg →
       Date.blt lg.timestamp.date t = false → lg.timestamp.date ≠ t →
       analysisLoop parsers t ln counts maxc (row :: rest)
         = analysisLoop parsers t (ln + 1) counts maxc rest)
    ∧ (∀ (ln : Nat) (counts : List (String × Nat)) (maxc : Nat)
        (row : List String) (rest : List (List String)) (lg : CookieLog),
        _parse_cookie_log parsers ln row = .ok lg →
        lg.timestamp.date = t →
        analysisLoop parsers t ln counts maxc (row :: rest)
          = analysisLoop parsers t (ln + 1)
              (dictSet counts lg.cookie (dictGetD counts lg.cookie 0 + 1))
              (max maxc (dictGetD counts lg.cookie 0 + 1)) rest)
    ∧ (∀ (ln : Nat) (counts : List (String × Nat)) (maxc : Nat)
        (row : List String) (rest : List (List String)) (lg : CookieLog),
        _parse_cookie_log parsers ln row = .ok lg →
        Date.blt lg.timestamp.date t = true →
        analysisLoop parsers t ln counts maxc (row :: rest)
          = .ok ⟨counts, maxc⟩)
    ∧ (∀ (pre : List (List String)) (r : List String)
        (post1 post2 : List (List String)) (lg : CookieLog),
        (∀ row ∈ pre, decodes_ge_target parsers t row = true) →
        _parse_cookie_log parsers 2 r = .ok lg →
        Date.blt lg.timestamp.date t = true →
        _get_cookies_analysis_rows parsers t (pre ++ r :: post1)
            = _get_cookies_analysis_rows parsers t pre
          ∧ _get_cookies_analysis_rows parsers t (pre ++ r :: post1)
            = _get_cookies_analysis_rows parsers t (pre ++ r :: post2)
          ∧ ∃ a, _get_cookies_analysis_rows parsers t (pre ++ r :: post1)
              = .ok a) := by
  refine ⟨?_, ?_, ?_, ?_⟩
  · intro ln counts maxc row rest lg hok hblt hne
    simp [analysisLoop, hok, hblt, hne]
  · intro ln counts maxc row rest lg hok heq
    have hblt : Date.blt lg.timestamp.date t = false := by
      rw [heq]
      exact Date.blt_irrefl t
    simp [analysisLoop, hok, hblt, heq, Date.blt_irrefl]
  · intro ln counts maxc row rest lg hok hblt
    simp [analysisLoop, hok, hblt]
  · intro pre r post1 post2 lg hpre hr hlt
    have h1 := @analysisLoop_stop parsers t r post1 lg hr hlt pre 2 [] 0 hpre
    have h2 := @analysisLoop_stop parsers t r post2 lg hr hlt pre 2 [] 0 hpre
    obtain ⟨a, ha⟩ := analysisLoop_all_ok pre 2 [] 0 hpre
    exact ⟨h1, h1.trans h2.symm, ⟨a, h1.trans ha⟩⟩

/-- C1 witness: on the sample prefix for 2021-12-09, the row dated
2021-12-08 stops the analysis, shielding a malformed sentinel row. -/
theorem aggregator_skip_count_stop_witness :
    _get_cookies_analysis_rows parsersCT dec9
        ([["cookie1", "2021-12-09T14:19:00+00:00"]]
          ++ ["cookie3", "2021-12-08T22:03:00+00:00"]
            :: [["sentinel", "not-a-date"]])
      = _get_cookies_analysis_rows parsersCT dec9
          [["cookie1", "2021-12-09T14:19:00+00:00"]] :=
  ((aggregator_skip_count_stop parsersCT dec9).2.2.2
    [["cookie1", "2021-12-09T14:19:00+00:00"]]
    ["cookie3", "2021-12-08T22:03:00+00:00"]
    [["sentinel", "not-a-date"]] []
    ⟨"cookie3", ⟨⟨2021, 12, 8⟩, 22, 3, 0, 0, some 0⟩⟩
    (by decide) (by decide) (by decide)).1

/-- C2: `get_most_active` returns exactly the cookie identifiers whose
count equals `max_count`, in the insertion order of the counts map (the
selection loop equals a filter of the map); an empty map yields the empty
list; ties are all kept. -/
theorem most_active_selection (a : CookiesAnalysis)
    (parsers : List CookiesDataParser) (s : CSVFile) (t : Date) :
    mostActiveLoop a.cookies_count_map a.max_count
      = (a.cookies_count_map.filter
          (fun p => decide (p.2 = a.max_count))).map Prod.fst
    ∧ (a.cookies_count_map = [] →
        mostActiveLoop a.cookies_count_map a.max_count = [])
    ∧ (∀ b, _get_cookies_analysis parsers s t = .ok b →
        get_most_active parsers s t
          = .ok ((b.cookies_count_map.filter
              (fun p => decide (p.2 = b.max_count))).map Prod.fst)) := by
  refine ⟨mostActiveLoop_filter _ _, ?_, ?_⟩
  · intro h
    rw [h]
    simp [mostActiveLoop]
  · intro b hb
    simp [get_most_active, hb, mostActiveLoop_filter]

/-- C2 witness: on the sample log and 2021-12-09 the selection returns
exactly the single maximal cookie. -/
theorem most_active_selection_witness :
    get_most_active parsersCT sampleFile dec9 = .ok ["cookie1"] := by
  have h := (most_active_selection ⟨[], 0⟩ parsersCT sampleFile dec9).2.2
    sampleAnalysis (by decide)
  exact h.trans (by decide)

/-- C3: on every successful aggregation, `max_count` equals the maximum
value of the counts map (0 when it is empty), and every key of the map is
the cookie of some decoded row of the stream dated at the target date. -/
theorem analysis_result_invariants (parsers : List CookiesDataParser)
    (s : CSVFile) (t : Date) (a : CookiesAnalysis)
    (h : _get_cookies_analysis parsers s t = .ok a) :
    a.max_count = valuesMax a.cookies_count_map ∧
    ∀ c, c ∈ keys a.cookies_count_map →
      ∃ row lg, row ∈ s.iter_rows_data ∧
        (∃ ln, _parse_cookie_log parsers ln row = .ok lg) ∧
        lg.cookie = c ∧ lg.timestamp.date = t := by
  obtain ⟨h1, hkeys⟩ :=
    analysisLoop_invariant s.iter_rows_data 2 [] 0 a (by simp [valuesMax]) h
  refine ⟨h1, fun c hc => ?_⟩
  rcases hkeys c hc with hin | hex
  · simp [keys] at hin
  · exact hex

/-- C3 witness: the invariants instantiated on the sample analysis for
2021-12-09. -/
theorem analysis_result_invariants_witness :
    sampleAnalysis.max_count = valuesMax sampleAnalysis.cookies_count_map ∧
    ∀ c, c ∈ keys sampleAnalysis.cookies_count_map →
      ∃ row lg, row ∈ sampleFile.iter_rows_data ∧
        (∃ ln, _parse_cookie_log parsersCT ln row = .ok lg) ∧
        lg.cookie = c ∧ lg.timestamp.date = dec9 :=
  analysis_result_invariants parsersCT sampleFile dec9 sampleAnalysis
    (by decide)

/-- C4 counterexample: the claim says construction fails for every header
row missing one of the two recognized headers or containing a duplicated
recognized header; yet the header row `cookie` alone, and the duplicated
row `cookie,cookie`, both construct successfully. -/
theorem incomplete_header_row_constructs :
    _init_data_parsers (extract_data_from_line "cookie")
        = .ok [⟨COOKIE_HEADER, .cookie⟩]
    ∧ CookiesAnalyzer.init ⟨["cookie"], 0, 0⟩ = .ok [⟨COOKIE_HEADER, .cookie⟩]
    ∧ _init_data_parsers ["cookie", "cookie"]
        = .ok [⟨COOKIE_HEADER, .cookie⟩, ⟨COOKIE_HEADER, .cookie⟩] := by
  decide

/-- C4 (amended): registry construction fails at construction time exactly
when the header row contains a field other than the two recognized
headers; rows made only of recognized names — including a single header or
duplicated recognized headers — construct successfully. -/
theorem registry_rejects_exactly_unsupported (headers : List String)
    (s : CSVFile) :
    ((_init_data_parsers headers).isOk = true ↔
      ∀ h ∈ headers, h = COOKIE_HEADER ∨ h = TIMESTAMP_HEADER)
    ∧ ((CookiesAnalyzer.init s).isOk = true ↔
      ∀ h ∈ (s.get_headers).1, h = COOKIE_HEADER ∨ h = TIMESTAMP_HEADER) :=
  ⟨init_data_parsers_ok_iff headers, init_data_parsers_ok_iff _⟩

/-- C4 witness: the exact header row `cookie,timestamp` constructs. -/
theorem registry_rejects_exactly_unsupported_witness :
    (_init_data_parsers ["cookie", "timestamp"]).isOk = true :=
  (registry_rejects_exactly_unsupported ["cookie", "timestamp"]
    ⟨[], 0, 0⟩).1.mpr (by decide)

/-- C5: registry construction fails with an unsupported-header error
naming an offending field exactly when some field is neither `cookie` nor
`timestamp` (and every construction failure is such an error); and the
bindings built for `cookie,timestamp` and `timestamp,cookie` decode a
data row and its swapped counterpart to the same Log Entry. -/
theorem unsupported_header_iff_and_order_independence :
    (∀ headers : List String,
      (∃ h, _init_data_parsers headers = .error (.unsupportedHeader h)) ↔
        ∃ h ∈ headers, h ≠ COOKIE_HEADER ∧ h ≠ TIMESTAMP_HEADER)
    ∧ (∀ (headers : List String) (e : AnalyzerError),
        _init_data_parsers headers = .error e →
        ∃ h, e = .unsupportedHeader h ∧ h ∈ headers ∧
          h ≠ COOKIE_HEADER ∧ h ≠ TIMESTAMP_HEADER)
    ∧ _init_data_parsers ["cookie", "timestamp"] = .ok parsersCT
    ∧ _init_data_parsers ["timestamp", "cookie"] = .ok parsersTC
    ∧ (∀ (cv tv : String) (ln : Nat) (lg : CookieLog),
        _parse_cookie_log parsersCT ln [cv, tv] = .ok lg ↔
        _parse_cookie_log parsersTC ln [tv, cv] = .ok lg) := by
  refine ⟨?_, fun headers e he => init_data_parsers_error_elim headers e he,
    by decide, by decide, parse_two_cols_comm⟩
  intro headers
  constructor
  · intro ⟨h, hh⟩
    obtain ⟨h2, he, hmem, hc, ht⟩ := init_data_parsers_error_elim headers _ hh
    exact ⟨h2, hmem, hc, ht⟩
  · intro ⟨h, hmem, hc, ht⟩
    have hnot : ¬ ∀ q ∈ headers, q = COOKIE_HEADER ∨ q = TIMESTAMP_HEADER :=
      fun hall => by rcases hall h hmem with hq | hq <;> [exact hc hq; exact ht hq]
    have hko : ¬ (_init_data_parsers headers).isOk = true :=
      fun hok => hnot ((init_data_parsers_ok_iff headers).mp hok)
    cases hres : _init_data_parsers headers with
    | ok ps => exact absurd (by simp [hres, Except.isOk, Except.toBool]) hko
    | error e =>
      obtain ⟨h2, he, hmem2, hc2, ht2⟩ :=
        init_data_parsers_error_elim headers e hres
      exact ⟨h2, by rw [he]⟩

/-- C5 witness: a `timestamp,cookie` file decodes a swapped row into the
same entry a `cookie,timestamp` file produces. -/
theorem unsupported_header_iff_and_order_independence_witness :
    _parse_cookie_log parsersTC 2 ["2021-12-09T14:19:00+00:00", "cookie1"]
      = .ok ⟨"cookie1", ⟨⟨2021, 12, 9⟩, 14, 19, 0, 0, some 0⟩⟩ :=
  (unsupported_header_iff_and_order_independence.2.2.2.2 "cookie1"
    "2021-12-09T14:19:00+00:00" 2
    ⟨"cookie1", ⟨⟨2021, 12, 9⟩, 14, 19, 0, 0, some 0⟩⟩).mp (by decide)

/-- C6: the row decoder fails with a column-count-mismatch error naming
the current line number whenever the field count differs from the binding
count — before any field parser runs (the error is the same whatever the
fields hold); otherwise parsers apply positionally and the first parser
failure aborts the row with its error; the cookie parser fails exactly on
the empty value and the timestamp parser exactly on an unparsable value,
each error carrying the line number and raw value. -/
theorem row_decoder_count_check_and_first_failure :
    (∀ (parsers : List CookiesDataParser) (ln : Nat) (row : List String),
      row.length ≠ parsers.length →
      _parse_cookie_log parsers ln row = .error (.columnCountMismatch ln))
    ∧ (∀ (parsers : List CookiesDataParser) (ln : Nat) (row : List String)
        (zpre : List (CookiesDataParser × String)) (p : CookiesDataParser)
        (v : String) (zrest : List (CookiesDataParser × String))
        (e : AnalyzerError),
        row.length = parsers.length →
        parsers.zip row = zpre ++ (p, v) :: zrest →
        (∀ q ∈ zpre, ∃ x, applyParsingFunc q.1.kind ln q.2 = .ok x) →
        applyParsingFunc p.kind ln v = .error e →
        _parse_cookie_log parsers ln row = .error e)
    ∧ (∀ (ln : Nat) (v : String),
        (applyParsingFunc .cookie ln v = .error (.malformedCookie ln v) ↔
          v.length = 0)
        ∧ (applyParsingFunc .timestamp ln v
            = .error (.malformedTimestamp ln v) ↔ fromisoformat v = none)) := by
  refine ⟨?_, ?_, ?_⟩
  · intro parsers ln row h
    simp [_parse_cookie_log, h]
  · intro parsers ln row zpre p v zrest e hlen hzip hpre hv
    have happ : applyDataParsers ln (zpre ++ (p, v) :: zrest) [] = .error e :=
      applyDataParsers_first_error zpre [] hpre hv
    simp [_parse_cookie_log, hlen, hzip, happ]
  · intro ln v
    constructor
    · by_cases hv : v.length = 0 <;> simp [applyParsingFunc, hv]
    · cases hf : fromisoformat v <;> simp [applyParsingFunc, hf]

/-- C6 witness: a two-column row whose cookie parses but whose timestamp
does not fails with the timestamp error at the current line number. -/
theorem row_decoder_count_check_and_first_failure_witness :
    _parse_cookie_log parsersCT 7 ["c1", "not-a-date"]
      = .error (.malformedTimestamp 7 "not-a-date") :=
  row_decoder_count_check_and_first_failure.2.1 parsersCT 7
    ["c1", "not-a-date"] [(⟨COOKIE_HEADER, .cookie⟩, "c1")]
    ⟨TIMESTAMP_HEADER, .timestamp⟩ "not-a-date" []
    (.malformedTimestamp 7 "not-a-date") (by decide) (by decide)
    (by
      intro q hq
      rw [List.mem_singleton] at hq
      subst hq
      exact ⟨.str "c1", by decide⟩)
    (by decide)

/-- C7 counterexample: the claim says CLI date parsing succeeds exactly on
well-formed `YYYY-MM-DD` strings, but the full date-time string
`2021-12-09T14:19:00` is accepted (its date portion is extracted). -/
theorem datetime_accepted_not_date_only :
    parse_date_input "2021-12-09T14:19:00" = .ok ⟨2021, 12, 9⟩
    ∧ isStrictDateOnly "2021-12-09T14:19:00" = false := by
  decide

/-- C7 (amended): CLI date parsing succeeds on every well-formed
`YYYY-MM-DD` calendar date, returning that date; it is not date-only
strict — any string the ISO date-time parser accepts succeeds, with the
date portion extracted — and any string that parser rejects fails with
the invalid-date-input error naming the raw input. -/
theorem date_input_parsing_behavior (s : String) :
    (isStrictDateOnly s = true → ∃ d, parse_date_input s = .ok d)
    ∧ (∀ d, parseIsoDate s.toList = some d ∧ s.toList.length = 10 →
        parse_date_input s = .ok d)
    ∧ (fromisoformat s = none →
        parse_date_input s = .error (.invalidDateInput s))
    ∧ (∀ ts, fromisoformat s = some ts → parse_date_input s = .ok ts.date) := by
  have hdate : ∀ d, parseIsoDate s.toList = some d → s.toList.length = 10 →
      parse_date_input s = .ok d := by
    intro d hp hlen
    have hlen2 : s.length = 10 := hlen
    have htake : s.toList.take 10 = s.toList := by
      rw [← hlen]
      exact List.take_length s.toList
    have htake2 : List.take 10 s.data = s.data := htake
    have hp2 : parseIsoDate s.data = some d := hp
    have hiso : fromisoformat s = some ⟨d, 0, 0, 0, 0, none⟩ := by
      simp [fromisoformat, hlen2, htake2, hp2]
    simp [parse_date_input, hiso]
  refine ⟨?_, fun d hd => hdate d hd.1 hd.2, ?_, ?_⟩
  · intro hs
    unfold isStrictDateOnly at hs
    rw [Bool.and_eq_true] at hs
    obtain ⟨hlen, hsome⟩ := hs
    have hlen2 : s.toList.length = 10 := by
      simpa using hlen
    obtain ⟨d, hd⟩ := Option.isSome_iff_exists.mp hsome
    have htake : s.toList.take 10 = s.toList := by
      rw [← hlen2]
      exact List.take_length s.toList
    exact ⟨d, hdate d (by rwa [htake] at hd) hlen2⟩
  · intro hnone
    simp [parse_date_input, hnone]
  · intro ts hts
    simp [parse_date_input, hts]

/-- C7 witness: the well-formed date-only string `2021-12-09` parses to
its date. -/
theorem date_input_parsing_behavior_witness :
    parse_date_input "2021-12-09" = .ok ⟨2021, 12, 9⟩ :=
  (date_input_parsing_behavior "2021-12-09").2.1 ⟨2021, 12, 9⟩
    ⟨by decide, by decide⟩

/-- C8: the aggregation and the most-active query depend only on the
stream content, not on the stream position or line counter the analyzer
is left with, because `iter_rows` seeks back to the start before each
pass; hence repeated calls on the same analyzer instance with the same
date return identical results. -/
theorem analysis_independent_of_stream_position
    (parsers : List CookiesDataParser) (lines : List String)
    (p1 n1 p2 n2 : Nat) (t : Date) :
    _get_cookies_analysis parsers ⟨lines, p1, n1⟩ t
        = _get_cookies_analysis parsers ⟨lines, p2, n2⟩ t
    ∧ get_most_active parsers ⟨lines, p1, n1⟩ t
        = get_most_active parsers ⟨lines, p2, n2⟩ t :=
  ⟨rfl, rfl⟩

/-- C9: the first data row dated before the target is itself fully
decoded before the early stop: when the rows before it decode to entries
not dated before the target and that row fails to decode (wrong field
count, empty cookie or unparsable timestamp), the whole analysis aborts
with that decode error — only rows after it are shielded. -/
theorem stop_row_decode_error_propagates (parsers : List CookiesDataParser)
    (t : Date) (pre : List (List String)) (r : List String)
    (post : List (List String)) (e : AnalyzerError)
    (hpre : ∀ row ∈ pre, decodes_ge_target parsers t row = true)
    (hr : _parse_cookie_log parsers (2 + pre.length) r = .error e) :
    _get_cookies_analysis_rows parsers t (pre ++ r :: post) = .error e :=
  analysisLoop_error_at pre 2 [] 0 hpre hr

/-- C9 witness: a malformed row in stop position (line 3) aborts the
analysis with its column-count error. -/
theorem stop_row_decode_error_propagates_witness :
    _get_cookies_analysis_rows parsersCT dec9
        ([["cookie1", "2021-12-09T14:19:00+00:00"]] ++ ["badrow"] :: [])
      = .error (.columnCountMismatch 3) :=
  stop_row_decode_error_propagates parsersCT dec9
    [["cookie1", "2021-12-09T14:19:00+00:00"]] ["badrow"] []
    (.columnCountMismatch 3) (by decide) (by decide)

/-- C10: constructing an analyzer on an empty stream fails with the
unsupported-header error naming the empty string: the empty header line
tokenizes to a single empty field, which registry construction rejects,
so no analyzer instance is produced. -/
theorem empty_stream_unsupported_empty_header (p n : Nat) :
    CookiesAnalyzer.init ⟨[], p, n⟩ = .error (.unsupportedHeader "")
    ∧ extract_data_from_line "" = [""] :=
  ⟨rfl, rfl⟩

end CookieAnalyzer
